import Mathlib

/-!
Verification of the apphub-app-creator application assembly pipeline.

The Go sources under `internal/client` are embedded shallowly.  Go strings
are modelled as `List Char` (Go code converts to `[]rune` wherever it
truncates, so rune-level lists are the faithful unit); Go maps keyed by
strings are modelled as association lists in insertion order; remote
providers (asset search, App Hub catalog, project metadata) are modelled
as explicit oracle functions supplied to each embedded operation.
-/

/-- Go strings, at rune granularity. -/
abbrev Str := List Char

/-- Embeds `strings.Split(s, "/")` for a single-character separator:
splitting on `c`, keeping empty fields, never returning an empty list. -/
def splitOnChar (c : Char) : Str → List Str
  | [] => [[]]
  | x :: xs =>
    let r := splitOnChar c xs
    if x = c then [] :: r
    else
      match r with
      | [] => [[x]]
      | y :: ys => (x :: y) :: ys

/-- Embeds the recurring Go idiom `s[strings.LastIndex(s, "/")+1:]`:
the substring after the last `/` (the whole string when there is none). -/
def lastSegment (s : Str) : Str := (splitOnChar '/' s).getLastD []

/-- Embeds `strings.Contains(hay, needle)`. -/
def containsSub (hay needle : Str) : Bool := decide (needle <:+: hay)

/-- Embeds `strings.HasPrefix(s, pre)`. -/
def hasPrefixStr (pre s : Str) : Bool := pre.isPrefixOf s

/-- A resource tag key/value pair (`assetpb` tag). -/
structure TagKV where
  tagKey : Str
  tagValue : Str
deriving DecidableEq

/-- The fields of `assetpb.ResourceSearchResult` that the pipeline reads. -/
structure Asset where
  name : Str
  assetType : Str
  location : Str
  project : Str
  parentFullResourceName : Str
  labels : List (Str × Str)
  tags : List TagKV
  effectiveTags : List (List TagKV)
deriving DecidableEq

/-- Embeds `asset.GetLabels()[k]` (Go map read, zero value `""`). -/
def getLabel (asset : Asset) (k : Str) : Str :=
  ((asset.labels.find? fun kv => decide (kv.1 = k)).map Prod.snd).getD []

/-- The `multiRegions` table from client.go. -/
def multiRegions : List Str :=
  ["us".toList, "eu".toList, "global".toList, "eur4".toList, "nam3".toList, "nam4".toList,
   "nam6".toList, "nam7".toList, "nam8".toList, "asia".toList, "asia1".toList]

/-- The `regions` table from client.go. -/
def regions : List Str :=
  ["africa-south1".toList, "asia-east1".toList, "asia-east2".toList, "asia-northeast1".toList,
   "asia-northeast2".toList, "asia-northeast3".toList, "asia-south1".toList, "asia-south2".toList,
   "asia-southeast1".toList, "asia-southeast2".toList, "australia-southeast1".toList,
   "australia-southeast2".toList, "europe-central2".toList, "europe-north1".toList,
   "europe-north2".toList, "europe-southwest1".toList, "europe-west1".toList,
   "europe-west10".toList, "europe-west12".toList, "europe-west2".toList, "europe-west3".toList,
   "europe-west4".toList, "europe-west6".toList, "europe-west8".toList, "europe-west9".toList,
   "me-central1".toList, "me-central2".toList, "me-west1".toList,
   "northamerica-northeast1".toList, "northamerica-northeast2".toList,
   "northamerica-south1".toList, "southamerica-east1".toList, "southamerica-west1".toList,
   "us-central1".toList, "us-east1".toList, "us-east4".toList, "us-east5".toList,
   "us-south1".toList, "us-west1".toList, "us-west2".toList, "us-west3".toList, "us-west4".toList]

/-- Embeds `describeRegion` (client.go): multi-regions collapse to
`"global"`, listed regions pass through, anything else is the
"region is not supported" error, modelled as `none`. -/
def describeRegion (regionName : Str) : Option Str :=
  if regionName ∈ multiRegions then some "global".toList
  else if regionName ∈ regions then some regionName
  else none

/-- The `WORKLOADS` classification table of `identifyServiceOrWorkload` (cais.go). -/
def WORKLOADS : List Str :=
  ["apps.k8s.io/Deployment".toList, "apps.k8s.io/DaemonSet".toList,
   "apps.k8s.io/StatefulSet".toList, "run.googleapis.com/Job".toList,
   "compute.googleapis.com/InstanceGroup".toList,
   "aiplatform.googleapis.com/ReasoningEngine".toList]

/-- Embeds `identifyServiceOrWorkload` (cais.go). -/
def identifyServiceOrWorkload (assetType : Str) : Str :=
  if assetType ∈ WORKLOADS then "discoveredWorkload".toList else "discoveredService".toList

/-- Embeds `isValidAppName` (client.go): the regex `^[a-z]` matches iff the
string starts with an ASCII lowercase letter. -/
def isValidAppName (s : Str) : Bool :=
  match s with
  | [] => false
  | c :: _ => c.isLower

/-- The well-known Kubernetes app label key `K8S_APP_LABEL` (cais.go). -/
def K8S_APP_LABEL : Str := "app.kubernetes.io/name".toList

/-- The tag scan of `getAppName` (client.go): first tag whose key's last
path segment equals `tagKey` yields its value's last path segment. -/
def findTagValue : List TagKV → Str → Option Str
  | [], _ => none
  | t :: ts, k =>
    if lastSegment t.tagKey = k then some (lastSegment t.tagValue) else findTagValue ts k

/-- The nested effective-tag scan of `getAppName` (client.go). -/
def findEffectiveTagValue : List (List TagKV) → Str → Option Str
  | [], _ => none
  | g :: gs, k =>
    match findTagValue g k with
    | some v => some v
    | none => findEffectiveTagValue gs k

/-- Embeds `getAppName` (client.go): the group-key resolver for the
asset-inventory modes.  Precedence: explicit label value, explicit tag
value (`""` and the CLI wildcard `"*"` both mean "no value filter"),
label key, tag key (direct tags then effective tags, `"unknown"` when
absent), then the `contains` literal. -/
def getAppName (labelKey tagKey contains labelValue tagValue : Str) (asset : Asset) : Str :=
  if labelValue ≠ [] ∧ labelValue ≠ "*".toList then labelValue
  else if tagValue ≠ [] ∧ tagValue ≠ "*".toList then tagValue
  else if labelKey ≠ [] then getLabel asset labelKey
  else if tagKey ≠ [] then
    match findTagValue asset.tags tagKey with
    | some v => v
    | none =>
      match findEffectiveTagValue asset.effectiveTags tagKey with
      | some v => v
      | none => "unknown".toList
  else contains

/-- Embeds `getProjectID` (client.go).  The project-metadata provider is
the oracle `lookupProject`; `none` covers both failure points in the Go
code (client construction and the GetProject call), each of which
returns the literal `"unknown"`. -/
def getProjectID (lookupProject : Str → Option Str) (project : Str) : Str :=
  if hasPrefixStr "projects/".toList project then
    match lookupProject project with
    | some id => id
    | none => "unknown".toList
  else project

/-- The direct-tag scan of `getAppNameFromAsset` (client.go): first tag
whose key's last segment contains "app" and whose value's last segment
is a valid app name. -/
def findAppTag : List TagKV → Option Str
  | [] => none
  | t :: ts =>
    if containsSub (lastSegment t.tagKey) "app".toList ∧ isValidAppName (lastSegment t.tagValue) then
      some (lastSegment t.tagValue)
    else findAppTag ts

/-- The nested effective-tag scan of `getAppNameFromAsset` (client.go). -/
def findEffectiveAppTag : List (List TagKV) → Option Str
  | [] => none
  | g :: gs =>
    match findAppTag g with
    | some v => some v
    | none => findEffectiveAppTag gs

/-- The label predicate of `getAppNameFromAsset` (client.go): key contains
"app" or is the well-known Kubernetes label, value is a valid app name. -/
def isAppLabel (kv : Str × Str) : Bool :=
  (containsSub kv.1 "app".toList || decide (kv.1 = K8S_APP_LABEL)) && isValidAppName kv.2

/-- Embeds `getAppNameFromAsset` (client.go), the auto-detect group-key
resolver.  Go iterates the label map in unspecified order; the label map
is modelled as a list scanned in order, which is irrelevant for the
no-match fallback this development reasons about. -/
def getAppNameFromAsset (lookupProject : Str → Option Str) (asset : Asset) : Str :=
  match asset.labels.find? isAppLabel with
  | some kv => kv.2
  | none =>
    match findAppTag asset.tags with
    | some v => v
    | none =>
      match findEffectiveAppTag asset.effectiveTags with
      | some v => v
      | none => getProjectID lookupProject asset.project

/-- Embeds the application-location choice shared by every generate entry
point (client.go): `"global"` when more than one location is targeted,
otherwise the single supplied location (`locations[0]`). -/
def appLocation (locations : List Str) : Str :=
  if locations.length > 1 then "global".toList else locations.headD []

/-- The scope embedded in `apphubpb.Scope`. -/
inductive Scope where
  | GLOBAL
  | REGIONAL
deriving DecidableEq

/-- Embeds the scope choice of `getOrCreateAppHubApplication` (apphub.go):
`GLOBAL` exactly when the application location is the literal `"global"`. -/
def applicationScope (location : Str) : Scope :=
  if location = "global".toList then Scope.GLOBAL else Scope.REGIONAL

/-- Scope of the application a generate run creates, as a function of the
supplied target locations. -/
def createdApplicationScope (locations : List Str) : Scope :=
  applicationScope (appLocation locations)

/-- Embeds `createShortSHA` (client.go) relative to the hex digest
primitive: `hashHex s` stands for `hex.EncodeToString(sha256.Sum(s))`
from the Go standard library, and the result is its first 7 characters. -/
def createShortSHA (hashHex : Str → Str) (input : Str) : Str := (hashHex input).take 7

/-- Embeds `getAppNameForKubernetes` (client.go).  The Go function indexes
`strings.Split(s, "/")` at positions 2 and 5 without a bounds check; the
out-of-range panic is modelled as `none`. -/
def getAppNameForKubernetes (hashHex : Str → Str) (s : Str) : Option Str :=
  let parts := splitOnChar '/' s
  let namespc := lastSegment s
  match parts[2]?, parts[5]? with
  | some project, some cluster =>
    some (namespc ++ '-' :: createShortSHA hashHex cluster ++ '-' :: createShortSHA hashHex project)
  | _, _ => none

/-- Embeds `truncateName` (apphub.go): cap the display name at 63 runes. -/
def truncateName (s : Str) : Str := if s.length > 63 then s.take 63 else s

/-- Embeds `strings.LastIndex(s, c)` for a single-character needle,
with `none` for Go's `-1`. -/
def lastIndexOfChar (c : Char) : Str → Option Nat
  | [] => none
  | x :: xs =>
    match lastIndexOfChar c xs with
    | some i => some (i + 1)
    | none => if x = c then some 0 else none

/-- Embeds `getServiceWorkloadId` (apphub.go): keep the portion of `id`
after its last `-`, prefix it with the (≤50-rune, underscore-sanitized)
asset name; an `id` without `-` is returned unchanged. -/
def getServiceWorkloadId (id assetName : Str) : Str :=
  match lastIndexOfChar '-' id with
  | none => id
  | some index =>
    let secondPart := id.drop (index + 1)
    let firstPart := if assetName.length > 50 then assetName.take 50 else assetName
    (firstPart.map fun c => if c = '_' then '-' else c) ++ '-' :: secondPart

/-- Spec-side helper: truncation to at most `n` runes. -/
def truncateRunes (n : Nat) (s : Str) : Str := if s.length > n then s.take n else s

/-- Spec-side helper: every underscore replaced by a hyphen. -/
def underscoresToHyphens (s : Str) : Str := s.map fun c => if c = '_' then '-' else c

/-- Spec-side helper: the substring after the last hyphen. -/
def afterLastHyphen (s : Str) : Str := (s.reverse.takeWhile fun c => decide (c ≠ '-')).reverse

/-- The registration id as the specification describes it: the display
name truncated to at most 63 then 50 runes with underscores replaced by
hyphens, then a hyphen, then the portion of the discovered id after its
last hyphen. -/
def claimedRegistrationId (displayName dsId : Str) : Str :=
  underscoresToHyphens (truncateRunes 50 (truncateRunes 63 displayName)) ++
    '-' :: afterLastHyphen dsId

/-- The gRPC status codes the pipeline branches on (grpc/codes). -/
inductive GrpcCode where
  | notFound
  | permissionDenied
  | alreadyExists
  | failedPrecondition
  | internal
  | unknownCode
deriving DecidableEq

/-- Embeds `st.Code().String()` for the codes above. -/
def codeStr : GrpcCode → Str
  | .notFound => "NotFound".toList
  | .permissionDenied => "PermissionDenied".toList
  | .alreadyExists => "AlreadyExists".toList
  | .failedPrecondition => "FailedPrecondition".toList
  | .internal => "Internal".toList
  | .unknownCode => "Unknown".toList

/-- Outcome of submitting a long-running create operation.  `isStatus`
models whether `status.FromError` recognizes the error; `msg` is the
rendered text of the underlying error (what `%w` splices in). -/
inductive LroSubmit where
  | accepted
  | failed (isStatus : Bool) (code : GrpcCode) (msg : Str)
deriving DecidableEq

/-- Outcome of blocking on a long-running operation's completion. -/
inductive LroWait where
  | completed (name : Str)
  | failed (isStatus : Bool) (code : GrpcCode) (msg : Str)
deriving DecidableEq

/-- Outcome of `newAttributesFromBytes` on the attributes payload. -/
inductive ParseResult where
  | parsed
  | parseError (msg : Str)
deriving DecidableEq

/-- Result of an embedded operation that Go reports as `error`:
`ok` for `nil`, `err` carrying the rendered error text. -/
inductive RegResult where
  | ok
  | err (msg : Str)
deriving DecidableEq

/-- Embeds `registerServiceWithApplication` (apphub.go).  The catalog
provider's responses to the Create submission and the completion wait
are the oracles `createOp` and `waitOp`; `attrs` is the outcome of
parsing the attributes payload.  Error strings follow the Go
`fmt.Errorf` formats verbatim. -/
def registerServiceWithApplication (createOp : LroSubmit) (waitOp : LroWait)
    (attrs : ParseResult) (appID discoveredName displayName appHubType : Str) : RegResult :=
  let parts := splitOnChar '/' discoveredName
  if parts.length < 6 then
    RegResult.err ("invalid discovered name format: ".toList ++ discoveredName)
  else
    match attrs with
    | .parseError m => RegResult.err ("failed to parse attributes: ".toList ++ m)
    | .parsed =>
      if appHubType = "discoveredService".toList then
        match createOp with
        | .failed true .alreadyExists _ => RegResult.ok
        | .failed _ _ m =>
          RegResult.err ("failed to start service registration: ".toList ++ m)
        | .accepted =>
          match waitOp with
          | .failed true .failedPrecondition _ => RegResult.ok
          | .failed _ _ m =>
            RegResult.err ("service registration failed during wait: ".toList ++ m)
          | .completed _ => RegResult.ok
      else
        match createOp with
        | .failed true .alreadyExists _ => RegResult.ok
        | .failed _ _ m =>
          RegResult.err ("failed to start workload registration: ".toList ++ m)
        | .accepted =>
          match waitOp with
          | .failed true .failedPrecondition _ => RegResult.ok
          | .failed _ _ m =>
            RegResult.err ("workload registration failed during wait: ".toList ++ m)
          | .completed _ => RegResult.ok

/-- One response of the catalog's lookup-by-URI operation:
success with an entity, success with a nil entity, a gRPC status error,
or an unrecognized error. -/
inductive ProviderResp where
  | found (name : Str)
  | missingEntity
  | statusErr (code : GrpcCode) (msg : Str)
  | plainErr (msg : Str)

/-- Result of the embedded lookup. -/
inductive LookupResult where
  | ok (name : Str)
  | err (msg : Str)
deriving DecidableEq

/-- Embeds `lookupDiscoveredServiceOrWorkload` (apphub.go).  The provider
oracle is keyed by the lookup location (the URI is fixed along the
recursion; the SQL-instance URI rewrite of `fixResourceURI` is folded
into the oracle and is the identity for the gateway URIs studied here).
The Go function calls itself on a NOT_FOUND error for a
gateway-shaped URI; the fuel argument bounds that recursion, `none`
meaning that no result was produced within the given bound. -/
def lookupDiscoveredServiceOrWorkload (provider : Str → ProviderResp)
    (resourceURI appHubType : Str) : Nat → Str → Option LookupResult
  | 0, _ => none
  | fuel + 1, location =>
    if appHubType = "discoveredService".toList ∨ appHubType = "discoveredWorkload".toList then
      match provider location with
      | .found name => some (.ok name)
      | .missingEntity =>
        if appHubType = "discoveredService".toList then
          some (.err ("discovered service not found for URI: ".toList ++ resourceURI))
        else
          some (.err ("workload not found for URI: ".toList ++ resourceURI))
      | .statusErr code m =>
        if code = .permissionDenied then
          some (.err ("permission denied: ensure the user has the '".toList ++
            (if appHubType = "discoveredWorkload".toList then
              "apphub.discoveredWorkloads.list".toList
            else "apphub.discoveredServices.list".toList) ++
            "' permission on the project: ".toList ++ m))
        else if code = .notFound ∧ containsSub resourceURI "gateway.networking.k8s.io".toList then
          lookupDiscoveredServiceOrWorkload provider resourceURI appHubType fuel "global".toList
        else
          some (.err ("app hub lookup API failed (Code: ".toList ++ codeStr code ++
            "): ".toList ++ m))
      | .plainErr m => some (.err ("app hub lookup API failed: ".toList ++ m))
    else some (.err ("invalid appHubType: ".toList ++ appHubType))

/-- The generated-applications report: Go's
`map[string][]string` in insertion order. -/
abbrev Report := List (Str × List Str)

/-- Report read (`generatedApplications[k]`, zero value `nil`). -/
def reportGet (r : Report) (k : Str) : List Str :=
  ((r.find? fun kv => decide (kv.1 = k)).map Prod.snd).getD []

/-- Embeds `m[k] = append(m[k], v...)` on the report map. -/
def reportAppend (r : Report) (k : Str) (v : List Str) : Report :=
  match r with
  | [] => [(k, v)]
  | (k', v') :: rest =>
    if k' = k then (k', v' ++ v) :: rest else (k', v') :: reportAppend rest k v

/-- Embeds `m[k] = v` (plain assignment) on the report map. -/
def reportSet (r : Report) (k : Str) (v : List Str) : Report :=
  match r with
  | [] => [(k, v)]
  | (k', v') :: rest =>
    if k' = k then (k', v) :: rest else (k', v') :: reportSet rest k v

/-- The remote collaborators of one generate run.  `lookup` maps
(region, resource URI, App Hub type) to the discovered-twin name, `[]`
standing for a failed or empty lookup (the Go code leaves
`discoveredName` as `""` in every error path); the Bool oracles give
the outcomes of the get-or-create and register mutations. -/
structure ProcessEnv where
  lookup : Str → Str → Str → Str
  getOrCreateOk : Str → Bool
  registerOk : Str → Str → Bool

/-- The mutating catalog calls a run can issue. -/
inductive CatalogCall where
  | getOrCreateApplication (location appName : Str)
  | createService (appName discoveredName : Str)
  | createWorkload (appName discoveredName : Str)
deriving DecidableEq

/-- Embeds `processAssets` (client.go).  Returns the report, the mutating
catalog calls issued in order, and whether the run aborted with an
error.  Per asset: classify service/workload, validate the region
(skip unsupported), skip global assets under a regional application,
look up the discovered twin (skip on failure), record the report triple,
then — unless `reportOnly` — get-or-create the application and register
the resource, aborting the run on either failure. -/
def processAssets (env : ProcessEnv) (appLoc : Str) (reportOnly : Bool)
    (getAppNameFunc : Asset → Str) : List Asset → Report → Report × (List CatalogCall × Bool)
  | [], report => (report, ([], false))
  | asset :: rest, report =>
    let appHubType := identifyServiceOrWorkload asset.assetType
    match describeRegion asset.location with
    | none => processAssets env appLoc reportOnly getAppNameFunc rest report
    | some assetRegion =>
      if assetRegion = "global".toList ∧ ¬ appLoc = "global".toList then
        processAssets env appLoc reportOnly getAppNameFunc rest report
      else
        let discoveredName := env.lookup assetRegion asset.name appHubType
        if discoveredName = [] then
          processAssets env appLoc reportOnly getAppNameFunc rest report
        else
          let appName := getAppNameFunc asset
          let report1 := reportAppend report appName
            [lastSegment discoveredName, appHubType, asset.name]
          if reportOnly then
            processAssets env appLoc reportOnly getAppNameFunc rest report1
          else
            if env.getOrCreateOk appName then
              let regCall := if appHubType = "discoveredService".toList then
                  CatalogCall.createService appName discoveredName
                else CatalogCall.createWorkload appName discoveredName
              if env.registerOk appName discoveredName then
                let result := processAssets env appLoc reportOnly getAppNameFunc rest report1
                (result.1,
                 (CatalogCall.getOrCreateApplication appLoc appName :: regCall :: result.2.1,
                  result.2.2))
              else
                (report1, ([CatalogCall.getOrCreateApplication appLoc appName, regCall], true))
            else
              (report1, ([CatalogCall.getOrCreateApplication appLoc appName], true))

/-- The `logAsset` record produced by `filterLogs` (cloudlogging source). -/
structure LogAsset where
  name : Str
  appHubType : Str
  location : Str
deriving DecidableEq

/-- Embeds the per-asset loop of `GenerateAppsCloudLogging` (client.go).
Assets arrive as (URI, logAsset) pairs; every successful lookup stores
its report triple under `logLabelValue` by plain map assignment
(`generatedApplications[appName] = []string{...}`), and — unless
`reportOnly` — the application is created and the resource registered,
aborting on either failure.  Returns the report and the abort flag. -/
def generateAppsCloudLogging (env : ProcessEnv) (logLabelValue : Str) (reportOnly : Bool) :
    List (Str × LogAsset) → Report → Report × Bool
  | [], report => (report, false)
  | (assetURI, asset) :: rest, report =>
    let discoveredName := env.lookup asset.location assetURI asset.appHubType
    if discoveredName = [] then
      generateAppsCloudLogging env logLabelValue reportOnly rest report
    else
      let appName := logLabelValue
      let report1 := reportSet report appName
        [lastSegment discoveredName, asset.appHubType, asset.name]
      if reportOnly then
        generateAppsCloudLogging env logLabelValue reportOnly rest report1
      else
        if env.getOrCreateOk appName then
          if env.registerOk appName discoveredName then
            generateAppsCloudLogging env logLabelValue reportOnly rest report1
          else (report1, true)
        else (report1, true)

/-- The fake catalog backing store: applications, and the service and
workload registrations keyed by owning application id. -/
structure CatalogStore where
  apps : List Str
  services : List (Str × Str)
  workloads : List (Str × Str)
deriving DecidableEq

/-- Effect of one mutating catalog call on the backing store. -/
def applyCatalogCall (s : CatalogStore) : CatalogCall → CatalogStore
  | .getOrCreateApplication _ appName =>
    if appName ∈ s.apps then s else { s with apps := appName :: s.apps }
  | .createService appName discoveredName =>
    { s with services := s.services ++ [(appName, lastSegment discoveredName)] }
  | .createWorkload appName discoveredName =>
    { s with workloads := s.workloads ++ [(appName, lastSegment discoveredName)] }

/-- Effect of a run's call sequence on the backing store. -/
def applyCatalogCalls (calls : List CatalogCall) (s : CatalogStore) : CatalogStore :=
  calls.foldl applyCatalogCall s

/-- The deletion operations the Teardown Coordinator submits. -/
inductive DeleteEvent where
  | deleteService (appID serviceID : Str)
  | deleteWorkload (appID workloadID : Str)
  | deleteApplication (appID : Str)
deriving DecidableEq

/-- Services registered under an application in the store. -/
def servicesOf (s : CatalogStore) (appID : Str) : List Str :=
  (s.services.filter fun p => decide (p.1 = appID)).map Prod.snd

/-- Workloads registered under an application in the store. -/
def workloadsOf (s : CatalogStore) (appID : Str) : List Str :=
  (s.workloads.filter fun p => decide (p.1 = appID)).map Prod.snd

/-- Effect of one completed deletion on the backing store. -/
def applyDeleteEvent (s : CatalogStore) : DeleteEvent → CatalogStore
  | .deleteService a i =>
    { s with services := s.services.filter fun p => decide (¬ (p.1 = a ∧ p.2 = i)) }
  | .deleteWorkload a i =>
    { s with workloads := s.workloads.filter fun p => decide (¬ (p.1 = a ∧ p.2 = i)) }
  | .deleteApplication a =>
    { s with apps := s.apps.filter fun x => decide (¬ x = a) }

/-- Submits the pending child deletions in order against the `ok` oracle,
stopping at the first failure: returns the completed deletions and
whether all of them succeeded.  This serializes the errgroup fan-out of
`removeAllServices`/`removeAllWorkloads` (cap 4, cancel on first error):
each worker deletes a distinct child, so the store effect of any
interleaving equals this sequential order, and a failure always prevents
everything after the group from being submitted. -/
def runDeletions (ok : DeleteEvent → Bool) : List DeleteEvent → List DeleteEvent × Bool
  | [] => ([], true)
  | e :: rest =>
    if ok e then
      let r := runDeletions ok rest
      (e :: r.1, r.2)
    else ([], false)

/-- Embeds `removeAllServices` (apphub.go) against the backing store:
list the application's services, fan out their deletions, apply the
completed ones to the store. -/
def removeAllServices (ok : DeleteEvent → Bool) (appID : Str) (s : CatalogStore) :
    CatalogStore × List DeleteEvent × Bool :=
  let pending := (servicesOf s appID).map (DeleteEvent.deleteService appID)
  let r := runDeletions ok pending
  (r.1.foldl applyDeleteEvent s, r.1, r.2)

/-- Embeds `removeAllWorkloads` (apphub.go) against the backing store. -/
def removeAllWorkloads (ok : DeleteEvent → Bool) (appID : Str) (s : CatalogStore) :
    CatalogStore × List DeleteEvent × Bool :=
  let pending := (workloadsOf s appID).map (DeleteEvent.deleteWorkload appID)
  let r := runDeletions ok pending
  (r.1.foldl applyDeleteEvent s, r.1, r.2)

/-- Embeds `deleteApp` (apphub.go): remove all services (abort on
failure), then all workloads (abort on failure), and only then submit
the application's own deletion.  Returns the final store, the trace of
submitted deletions in order, and overall success. -/
def deleteApp (ok : DeleteEvent → Bool) (appID : Str) (s : CatalogStore) :
    CatalogStore × List DeleteEvent × Bool :=
  let rs := removeAllServices ok appID s
  if rs.2.2 = false then (rs.1, rs.2.1, false)
  else
    let rw := removeAllWorkloads ok appID rs.1
    if rw.2.2 = false then (rw.1, rs.2.1 ++ rw.2.1, false)
    else
      let appEv := DeleteEvent.deleteApplication appID
      if ok appEv then
        (applyDeleteEvent rw.1 appEv, rs.2.1 ++ rw.2.1 ++ [appEv], true)
      else (rw.1, rs.2.1 ++ rw.2.1 ++ [appEv], false)

/-- C4 (counterexample): a run targeting exactly the single location
`"global"` creates its application with GLOBAL scope, not REGIONAL, so
"REGIONAL when exactly one target location is supplied, for every value
of that single location" fails at `locations = ["global"]`. -/
theorem createdApplicationScope_single_global :
    createdApplicationScope ["global".toList] = Scope.GLOBAL
      ∧ Scope.GLOBAL ≠ Scope.REGIONAL := by
  constructor
  · rfl
  · decide

/-- C4 (amended): the created application's scope is GLOBAL when more
than one target location is supplied; with exactly one target location
it is GLOBAL when that location is the literal `"global"` and REGIONAL
for every other single location. -/
theorem createdApplicationScope_policy (locations : List Str) :
    (locations.length > 1 → createdApplicationScope locations = Scope.GLOBAL)
      ∧ (locations.length = 1 → locations.headD [] = "global".toList →
          createdApplicationScope locations = Scope.GLOBAL)
      ∧ (locations.length = 1 → locations.headD [] ≠ "global".toList →
          createdApplicationScope locations = Scope.REGIONAL) := by
  refine ⟨fun h => ?_, fun h1 h2 => ?_, fun h1 h2 => ?_⟩
  · simp [createdApplicationScope, appLocation, applicationScope, h]
  · obtain ⟨a, rfl⟩ := List.length_eq_one.mp h1
    have ha : a = "global".toList := h2
    subst ha
    rfl
  · obtain ⟨a, rfl⟩ := List.length_eq_one.mp h1
    have ha : a ≠ "global".toList := h2
    have hd : createdApplicationScope [a] = applicationScope a := rfl
    rw [hd, applicationScope, if_neg ha]

/-- C4 (witness): two locations give GLOBAL, one non-global location
gives REGIONAL. -/
theorem createdApplicationScope_policy_witness :
    createdApplicationScope ["us-west1".toList, "us-east1".toList] = Scope.GLOBAL
      ∧ createdApplicationScope ["us-west1".toList] = Scope.REGIONAL :=
  ⟨(createdApplicationScope_policy ["us-west1".toList, "us-east1".toList]).1 (by decide),
   (createdApplicationScope_policy ["us-west1".toList]).2.2 (by decide) (by decide)⟩

/-- C7: when an explicit (non-empty, non-wildcard) label-value filter is
supplied, the group-key resolver returns that literal value for every
asset; likewise for an explicit tag-value filter (the CLI leaves
`labelValue` empty or sets it to the wildcard `"*"` in tag mode). -/
theorem getAppName_explicit_value_filters (labelKey tagKey contains labelValue tagValue : Str)
    (asset : Asset) :
    (labelValue ≠ [] → labelValue ≠ "*".toList →
      getAppName labelKey tagKey contains labelValue tagValue asset = labelValue)
      ∧ (labelValue = [] ∨ labelValue = "*".toList → tagValue ≠ [] → tagValue ≠ "*".toList →
          getAppName labelKey tagKey contains labelValue tagValue asset = tagValue) := by
  constructor
  · intro h1 h2
    rw [getAppName, if_pos ⟨h1, h2⟩]
  · intro hl h1 h2
    have hneg : ¬ (labelValue ≠ [] ∧ labelValue ≠ "*".toList) := by
      rcases hl with h | h <;> simp [h]
    rw [getAppName, if_neg hneg, if_pos ⟨h1, h2⟩]

/-- C7 (witness): concrete explicit label-value and tag-value filters. -/
theorem getAppName_explicit_value_filters_witness :
    getAppName "team".toList [] [] "checkout".toList [] ⟨[], [], [], [], [], [], [], []⟩
        = "checkout".toList
      ∧ getAppName [] "team".toList [] "*".toList "billing".toList ⟨[], [], [], [], [], [], [], []⟩
        = "billing".toList :=
  ⟨(getAppName_explicit_value_filters "team".toList [] [] "checkout".toList []
      ⟨[], [], [], [], [], [], [], []⟩).1 (by decide) (by decide),
   (getAppName_explicit_value_filters [] "team".toList [] "*".toList "billing".toList
      ⟨[], [], [], [], [], [], [], []⟩).2 (Or.inr (by decide)) (by decide) (by decide)⟩

/-- C5 (counterexample): for a resource with no valid app-naming label or
tag whose project reference is `"projects/123"`, a failing
project-metadata lookup makes the auto-detect resolver return the
literal `"unknown"`, not the raw identifier `"projects/123"` that the
claim promises. -/
theorem autoDetect_lookup_failure_yields_unknown :
    getAppNameFromAsset (fun _ => none)
        ⟨[], [], [], "projects/123".toList, [], [], [], []⟩ = "unknown".toList
      ∧ "unknown".toList ≠ "projects/123".toList := by
  constructor
  · rfl
  · decide

/-- C5 (amended): with no valid app-naming label or tag, the auto-detect
resolver returns the project-metadata result for the owning project;
the fallback is the raw identifier only when it does not start with
`"projects/"`, while a failing lookup on a `"projects/"`-prefixed
identifier yields the literal `"unknown"`. -/
theorem autoDetect_project_fallback (lookupProject : Str → Option Str) (asset : Asset)
    (h1 : asset.labels.find? isAppLabel = none)
    (h2 : findAppTag asset.tags = none)
    (h3 : findEffectiveAppTag asset.effectiveTags = none) :
    getAppNameFromAsset lookupProject asset = getProjectID lookupProject asset.project
      ∧ (hasPrefixStr "projects/".toList asset.project = false →
          getProjectID lookupProject asset.project = asset.project)
      ∧ (hasPrefixStr "projects/".toList asset.project = true →
          lookupProject asset.project = none →
          getProjectID lookupProject asset.project = "unknown".toList)
      ∧ (∀ pid, hasPrefixStr "projects/".toList asset.project = true →
          lookupProject asset.project = some pid →
          getProjectID lookupProject asset.project = pid) := by
  refine ⟨?_, fun hp => ?_, fun hp hn => ?_, fun pid hp hs => ?_⟩
  · simp only [getAppNameFromAsset, h1, h2, h3]
  · rw [getProjectID, if_neg (by simp only [Bool.not_eq_true]; exact hp)]
  · rw [getProjectID, if_pos (by exact hp), hn]
  · rw [getProjectID, if_pos (by exact hp), hs]

/-- C5 (witness): a bare asset with project `"projects/123"` resolves to
the metadata-provided id, and with a non-`projects/` reference the raw
string comes back. -/
theorem autoDetect_project_fallback_witness :
    getAppNameFromAsset (fun _ => some "my-project".toList)
        ⟨[], [], [], "projects/123".toList, [], [], [], []⟩ = "my-project".toList
      ∧ getProjectID (fun _ => some "my-project".toList) "147".toList = "147".toList := by
  constructor
  · exact (autoDetect_project_fallback (fun _ => some "my-project".toList)
      ⟨[], [], [], "projects/123".toList, [], [], [], []⟩ rfl rfl rfl).1.trans
      ((autoDetect_project_fallback (fun _ => some "my-project".toList)
        ⟨[], [], [], "projects/123".toList, [], [], [], []⟩ rfl rfl rfl).2.2.2
        "my-project".toList rfl rfl)
  · exact (autoDetect_project_fallback (fun _ => some "my-project".toList)
      ⟨[], [], [], "147".toList, [], [], [], []⟩ rfl rfl rfl).2.1 rfl

/-- C10: the per-namespace group key is defined exactly for parent paths
with at least six `/`-separated segments — last segment, a hyphen, the
7-hex-char short hash of segment 6, a hyphen, the short hash of
segment 3 — and any input with fewer than six segments hits an
out-of-range index (a Go panic, modelled as `none`), so the
per-namespace pipeline crashes on such a `ParentFullResourceName`
instead of skipping the resource. -/
theorem getAppNameForKubernetes_totality (hashHex : Str → Str) (s : Str) :
    (6 ≤ (splitOnChar '/' s).length →
      getAppNameForKubernetes hashHex s =
        some (lastSegment s ++ '-' :: (hashHex ((splitOnChar '/' s).getD 5 [])).take 7 ++
          '-' :: (hashHex ((splitOnChar '/' s).getD 2 [])).take 7))
      ∧ ((splitOnChar '/' s).length < 6 → getAppNameForKubernetes hashHex s = none) := by
  constructor
  · intro h
    have h2 : 2 < (splitOnChar '/' s).length := by omega
    have h5 : 5 < (splitOnChar '/' s).length := by omega
    simp [getAppNameForKubernetes, createShortSHA, List.getElem?_eq_getElem h2,
      List.getElem?_eq_getElem h5, List.getD, List.get?_eq_getElem?,
      List.getElem?_eq_getElem]
  · intro h
    have h5 : (splitOnChar '/' s)[5]? = none := by
      rw [List.getElem?_eq_none]
      omega
    simp [getAppNameForKubernetes, h5]

/-- C10 (witness): a six-segment parent path produces the hashed group
key; a two-segment path produces the modelled panic. -/
theorem getAppNameForKubernetes_totality_witness :
    getAppNameForKubernetes (fun s => s ++ "0123456789".toList)
        "pa/pb/my-proj/pd/pe/my-cluster".toList
      = some "my-cluster-my-clus-my-proj".toList
      ∧ getAppNameForKubernetes (fun s => s ++ "0123456789".toList) "pa/pb".toList = none := by
  constructor
  · exact ((getAppNameForKubernetes_totality (fun s => s ++ "0123456789".toList)
      "pa/pb/my-proj/pd/pe/my-cluster".toList).1 (by decide)).trans (by decide)
  · exact (getAppNameForKubernetes_totality (fun s => s ++ "0123456789".toList)
      "pa/pb".toList).2 (by decide)

/-- Scanning `m ++ k` for the part before the first `c` stops inside `m`
whenever `c` occurs in `m`. -/
theorem takeWhile_append_left_of_mem {c : Char} :
    ∀ m k : Str, c ∈ m →
      (m ++ k).takeWhile (fun x => decide (x ≠ c)) = m.takeWhile (fun x => decide (x ≠ c))
  | [], _, h => absurd h (List.not_mem_nil c)
  | x :: xs, k, h => by
    by_cases hx : x = c
    · subst hx
      have hb : (fun y => decide (y ≠ x)) x = false := by simp
      simp [List.cons_append, List.takeWhile_cons, hb]
    · have hb : (fun y => decide (y ≠ c)) x = true := by simp [hx]
      have hmem : c ∈ xs := by
        rcases List.mem_cons.mp h with h' | h'
        · exact absurd h'.symm hx
        · exact h'
      have ih := takeWhile_append_left_of_mem xs k hmem
      simp only [ne_eq, decide_not] at ih
      simp [List.cons_append, List.takeWhile_cons, hb, hx, ih]

/-- Scanning up to a sentinel `c` that does not occur in `m` returns all
of `m`. -/
theorem takeWhile_append_sentinel {c : Char} :
    ∀ m : Str, c ∉ m → (m ++ [c]).takeWhile (fun x => decide (x ≠ c)) = m
  | [], _ => by
    have hb : (fun y => decide (y ≠ c)) c = false := by simp
    simp [List.nil_append, List.takeWhile_cons, hb]
  | x :: xs, h => by
    have hx : x ≠ c := fun hxc => h (hxc ▸ List.mem_cons_self x xs)
    have hxs : c ∉ xs := fun hmem => h (List.mem_cons_of_mem x hmem)
    have hb : (fun y => decide (y ≠ c)) x = true := by simp [hx]
    have ih := takeWhile_append_sentinel xs hxs
    simp only [ne_eq, decide_not] at ih
    simp [List.cons_append, List.takeWhile_cons, hb, hx, ih]

/-- Lemma: `lastIndexOfChar` returns `none` exactly on strings not containing
the character (Go's `-1` case). -/
theorem lastIndexOfChar_eq_none {c : Char} :
    ∀ l : Str, lastIndexOfChar c l = none ↔ c ∉ l
  | [] => by simp [lastIndexOfChar]
  | x :: xs => by
    rw [lastIndexOfChar]
    cases h : lastIndexOfChar c xs with
    | some i =>
      have hmem : c ∈ xs := by
        by_contra hc
        rw [(lastIndexOfChar_eq_none xs).mpr hc] at h
        cases h
      simp [hmem]
    | none =>
      have hxs : c ∉ xs := (lastIndexOfChar_eq_none xs).mp h
      by_cases hx : x = c
      · simp [hx]
      · have hcx : ¬ c = x := fun hcx => hx hcx.symm
        simp [hx, hxs, hcx]

/-- The suffix that `getServiceWorkloadId` keeps — everything after the
last occurrence of `c` — equals the reversed take-while scan from the
right. -/
theorem drop_lastIndexOfChar {c : Char} :
    ∀ (l : Str) (i : Nat), lastIndexOfChar c l = some i →
      l.drop (i + 1) = (l.reverse.takeWhile fun x => decide (x ≠ c)).reverse
  | [], i, h => by cases h
  | x :: xs, i, h => by
    rw [lastIndexOfChar] at h
    cases hxs : lastIndexOfChar c xs with
    | some j =>
      rw [hxs] at h
      have h2 : some (j + 1) = some i := h
      obtain rfl : j + 1 = i := Option.some.inj h2
      have hmem : c ∈ xs := by
        by_contra hc
        rw [(lastIndexOfChar_eq_none xs).mpr hc] at hxs
        cases hxs
      have hmemr : c ∈ xs.reverse := List.mem_reverse.mpr hmem
      rw [List.drop_succ_cons, drop_lastIndexOfChar xs j hxs, List.reverse_cons,
        takeWhile_append_left_of_mem xs.reverse [x] hmemr]
    | none =>
      rw [hxs] at h
      by_cases hx : x = c
      · rw [if_pos hx] at h
        have h2 : some 0 = some i := h
        obtain rfl : 0 = i := Option.some.inj h2
        have hxs' : c ∉ xs := (lastIndexOfChar_eq_none xs).mp hxs
        have hnm : c ∉ xs.reverse := fun hm => hxs' (List.mem_reverse.mp hm)
        rw [List.drop_succ_cons, List.drop_zero, List.reverse_cons, hx,
          takeWhile_append_sentinel xs.reverse hnm, List.reverse_reverse]
      · rw [if_neg hx] at h
        cases h

/-- C8: for a discovered id containing a hyphen, the derived registration
id is the display name truncated to at most 63 then 50 runes with every
underscore replaced by a hyphen, followed by a hyphen and the portion of
the discovered id after its last hyphen. -/
theorem getServiceWorkloadId_spec (dsId displayName : Str) (h : '-' ∈ dsId) :
    getServiceWorkloadId dsId (truncateName displayName) =
      claimedRegistrationId displayName dsId := by
  obtain ⟨i, hi⟩ : ∃ i, lastIndexOfChar '-' dsId = some i := by
    cases hl : lastIndexOfChar '-' dsId with
    | some j => exact ⟨j, rfl⟩
    | none => exact absurd ((lastIndexOfChar_eq_none dsId).mp hl) (not_not_intro h)
  rw [getServiceWorkloadId, hi]
  show ((if (truncateName displayName).length > 50 then (truncateName displayName).take 50
      else truncateName displayName).map fun c => if c = '_' then '-' else c) ++
      '-' :: dsId.drop (i + 1) = claimedRegistrationId displayName dsId
  rw [drop_lastIndexOfChar dsId i hi]
  rfl

/-- C8 (witness): discovered id `svc-123` with display name `my-service`
derives the registration id `my-service-123`. -/
theorem getServiceWorkloadId_spec_witness :
    getServiceWorkloadId "svc-123".toList (truncateName "my-service".toList) =
      "my-service-123".toList :=
  (getServiceWorkloadId_spec "svc-123".toList "my-service".toList (by decide)).trans
    (by decide)

/-- C3 (counterexample): a submission failure other than ALREADY_EXISTS
aborts with an error whose text names neither the application, nor the
discovered id, nor the display name, so "an error identifying the
application and resource" fails as stated. -/
theorem registerServiceWithApplication_error_lacks_identifiers :
    registerServiceWithApplication (.failed true .internal "boom".toList)
        (.completed "x".toList) .parsed "my-app".toList
        "projects/p/locations/us-west1/discoveredServices/svc-1".toList
        "my-service".toList "discoveredService".toList
      = .err "failed to start service registration: boom".toList
      ∧ containsSub "failed to start service registration: boom".toList "my-app".toList = false
      ∧ containsSub "failed to start service registration: boom".toList "svc-1".toList = false
      ∧ containsSub "failed to start service registration: boom".toList
          "my-service".toList = false := by
  refine ⟨?_, ?_, ?_, ?_⟩
  · rfl
  · decide
  · decide
  · decide

/-- C3 (amended): on both the service and the workload path, a
status-recognized ALREADY_EXISTS at submission and a status-recognized
FAILED_PRECONDITION at the completion wait return success (nil); every
other submission or wait failure returns a non-nil wrapped error naming
the failing phase (but not the application or resource). -/
theorem registerServiceWithApplication_policy (appID dn dsp t : Str)
    (ht : t = "discoveredService".toList ∨ t = "discoveredWorkload".toList)
    (hdn : ¬ (splitOnChar '/' dn).length < 6) :
    (∀ w m, registerServiceWithApplication (.failed true .alreadyExists m) w .parsed
        appID dn dsp t = .ok)
      ∧ (∀ m, registerServiceWithApplication .accepted (.failed true .failedPrecondition m)
          .parsed appID dn dsp t = .ok)
      ∧ (∀ n, registerServiceWithApplication .accepted (.completed n) .parsed
          appID dn dsp t = .ok)
      ∧ (∀ w b c m, ¬ (b = true ∧ c = GrpcCode.alreadyExists) →
          registerServiceWithApplication (.failed b c m) w .parsed appID dn dsp t =
            .err ((if t = "discoveredService".toList then
                "failed to start service registration: ".toList
              else "failed to start workload registration: ".toList) ++ m))
      ∧ (∀ b c m, ¬ (b = true ∧ c = GrpcCode.failedPrecondition) →
          registerServiceWithApplication .accepted (.failed b c m) .parsed appID dn dsp t =
            .err ((if t = "discoveredService".toList then
                "service registration failed during wait: ".toList
              else "workload registration failed during wait: ".toList) ++ m)) := by
  rcases ht with rfl | rfl <;>
    refine ⟨fun w m => ?_, fun m => ?_, fun n => ?_, fun w b c m hnc => ?_,
      fun b c m hnc => ?_⟩
  · rw [registerServiceWithApplication, if_neg hdn]
    rfl
  · rw [registerServiceWithApplication, if_neg hdn]
    rfl
  · rw [registerServiceWithApplication, if_neg hdn]
    rfl
  · cases b <;> cases c <;>
      first
      | (rw [registerServiceWithApplication, if_neg hdn] <;>
          first
          | rfl
          | (intro h1 h2; exact hnc ⟨h1, h2⟩))
      | (exact absurd ⟨rfl, rfl⟩ hnc)
  · cases b <;> cases c <;>
      first
      | (rw [registerServiceWithApplication, if_neg hdn] <;>
          first
          | rfl
          | (intro h1 h2; exact hnc ⟨h1, h2⟩))
      | (exact absurd ⟨rfl, rfl⟩ hnc)
  · rw [registerServiceWithApplication, if_neg hdn]
    rfl
  · rw [registerServiceWithApplication, if_neg hdn]
    rfl
  · rw [registerServiceWithApplication, if_neg hdn]
    rfl
  · cases b <;> cases c <;>
      first
      | (rw [registerServiceWithApplication, if_neg hdn] <;>
          first
          | rfl
          | (intro h1 h2; exact hnc ⟨h1, h2⟩))
      | (exact absurd ⟨rfl, rfl⟩ hnc)
  · cases b <;> cases c <;>
      first
      | (rw [registerServiceWithApplication, if_neg hdn] <;>
          first
          | rfl
          | (intro h1 h2; exact hnc ⟨h1, h2⟩))
      | (exact absurd ⟨rfl, rfl⟩ hnc)

/-- C3 (witness): ALREADY_EXISTS at submission and FAILED_PRECONDITION at
the wait both succeed on the service path for a concrete registration. -/
theorem registerServiceWithApplication_policy_witness :
    registerServiceWithApplication (.failed true .alreadyExists "dup".toList)
        (.completed "x".toList) .parsed "my-app".toList
        "projects/p/locations/us-west1/discoveredServices/svc-1".toList
        "my-service".toList "discoveredService".toList = .ok
      ∧ registerServiceWithApplication .accepted
        (.failed true .failedPrecondition "fp".toList) .parsed "my-app".toList
        "projects/p/locations/us-west1/discoveredServices/svc-1".toList
        "my-service".toList "discoveredService".toList = .ok :=
  ⟨(registerServiceWithApplication_policy "my-app".toList
      "projects/p/locations/us-west1/discoveredServices/svc-1".toList
      "my-service".toList "discoveredService".toList (Or.inl rfl) (by decide)).1
      (.completed "x".toList) "dup".toList,
   (registerServiceWithApplication_policy "my-app".toList
      "projects/p/locations/us-west1/discoveredServices/svc-1".toList
      "my-service".toList "discoveredService".toList (Or.inl rfl) (by decide)).2.1
      "fp".toList⟩

/-- A gateway-shaped resource URI (contains `gateway.networking.k8s.io`). -/
def sampleGatewayURI : Str :=
  "//gateway.networking.k8s.io/projects/p/locations/us-west1/gateways/g1".toList

/-- C2: the gateway NOT_FOUND fallback does not retry exactly once.  When
the provider answers NOT_FOUND at every location — including `"global"`
— the lookup re-invokes itself against `"global"` indefinitely and
produces no result under any recursion bound (the Go function loops,
issuing the lookup forever); when the `"global"` retry succeeds, the
lookup terminates after the single retry with that result. -/
theorem gatewayLookup_unbounded_retry :
    (∀ (fuel : Nat) (location : Str),
      lookupDiscoveredServiceOrWorkload (fun _ => .statusErr .notFound "nf".toList)
        sampleGatewayURI "discoveredService".toList fuel location = none)
      ∧ lookupDiscoveredServiceOrWorkload
          (fun loc => if loc = "global".toList then
              .found "projects/p/locations/global/discoveredServices/ds-1".toList
            else .statusErr .notFound "nf".toList)
          sampleGatewayURI "discoveredService".toList 2 "us-west1".toList
        = some (.ok "projects/p/locations/global/discoveredServices/ds-1".toList) := by
  constructor
  · intro fuel
    induction fuel with
    | zero => intro location; rfl
    | succ n ih =>
      intro location
      rw [lookupDiscoveredServiceOrWorkload,
        if_pos (Or.inl rfl : "discoveredService".toList = "discoveredService".toList
          ∨ "discoveredService".toList = "discoveredWorkload".toList)]
      show (if GrpcCode.notFound = GrpcCode.permissionDenied then _
        else if GrpcCode.notFound = GrpcCode.notFound ∧
            containsSub sampleGatewayURI "gateway.networking.k8s.io".toList = true then
          lookupDiscoveredServiceOrWorkload _ sampleGatewayURI "discoveredService".toList
            n "global".toList
        else _) = none
      rw [if_neg (by decide), if_pos ⟨rfl, by decide⟩]
      exact ih "global".toList
  · decide

/-- A report-only run issues no mutating catalog call. -/
theorem processAssets_reportOnly_no_calls (env : ProcessEnv) (appLoc : Str)
    (f : Asset → Str) :
    ∀ (assets : List Asset) (report : Report),
      (processAssets env appLoc true f assets report).2.1 = []
  | [], _ => rfl
  | asset :: rest, report => by
    simp only [processAssets]
    cases describeRegion asset.location with
    | none => exact processAssets_reportOnly_no_calls env appLoc f rest report
    | some assetRegion =>
      dsimp only
      split
      · exact processAssets_reportOnly_no_calls env appLoc f rest report
      · split
        · exact processAssets_reportOnly_no_calls env appLoc f rest report
        · exact processAssets_reportOnly_no_calls env appLoc f rest _

/-- Either the mutating run aborts with an error, or the report-only run
accumulates exactly the same report as the mutating run. -/
theorem processAssets_report_cases (env : ProcessEnv) (appLoc : Str) (f : Asset → Str) :
    ∀ (assets : List Asset) (report : Report),
      (processAssets env appLoc false f assets report).2.2 = true ∨
        (processAssets env appLoc true f assets report).1 =
          (processAssets env appLoc false f assets report).1
  | [], _ => Or.inr rfl
  | asset :: rest, report => by
    simp only [processAssets]
    cases hreg : describeRegion asset.location with
    | none => exact processAssets_report_cases env appLoc f rest report
    | some assetRegion =>
      by_cases hglob : assetRegion = "global".toList ∧ ¬ appLoc = "global".toList
      · simp only [if_pos hglob]
        exact processAssets_report_cases env appLoc f rest report
      · simp only [if_neg hglob]
        by_cases hdn :
            env.lookup assetRegion asset.name (identifyServiceOrWorkload asset.assetType) = []
        · simp only [if_pos hdn]
          exact processAssets_report_cases env appLoc f rest report
        · simp only [if_neg hdn]
          by_cases hg : env.getOrCreateOk (f asset) = true
          · by_cases hr : env.registerOk (f asset)
                (env.lookup assetRegion asset.name (identifyServiceOrWorkload asset.assetType)) =
                  true
            · simp only [hg, hr, eq_self_iff_true, if_true]
              simpa using processAssets_report_cases env appLoc f rest
                (reportAppend report (f asset)
                  [lastSegment
                      (env.lookup assetRegion asset.name (identifyServiceOrWorkload asset.assetType)),
                    identifyServiceOrWorkload asset.assetType, asset.name])
            · simp [hg, hr]
          · simp [hg]

/-- C6: in report-only mode, processAssets issues no mutating catalog
call (the external catalog state is unchanged by the run) while the
report records, for every resource whose discovered-twin lookup
succeeds, exactly the triples a normal (non-report-only) run records
whenever that normal run completes without an error. -/
theorem processAssets_reportOnly_frame (env : ProcessEnv) (appLoc : Str) (f : Asset → Str)
    (assets : List Asset) (report : Report) :
    (processAssets env appLoc true f assets report).2.1 = []
      ∧ (∀ store : CatalogStore,
          applyCatalogCalls ((processAssets env appLoc true f assets report).2.1) store = store)
      ∧ ((processAssets env appLoc false f assets report).2.2 = false →
          (processAssets env appLoc true f assets report).1 =
            (processAssets env appLoc false f assets report).1) := by
  have h1 := processAssets_reportOnly_no_calls env appLoc f assets report
  refine ⟨h1, fun store => by rw [h1]; rfl, fun herr => ?_⟩
  rcases processAssets_report_cases env appLoc f assets report with h | h
  · rw [herr] at h
    cases h
  · exact h

/-- A lookup oracle and catalog oracles for one-asset sample runs. -/
def sampleEnv : ProcessEnv :=
  ⟨fun _ _ _ => "projects/p/locations/us-west1/discoveredServices/svc-9".toList,
   fun _ => true, fun _ _ => true⟩

/-- A Cloud-Run-shaped sample asset in a supported region. -/
def sampleAsset : Asset :=
  ⟨"//run.googleapis.com/projects/p/locations/us-west1/services/checkout".toList,
   "run.googleapis.com/Service".toList, "us-west1".toList, "projects/p".toList,
   [], [], [], []⟩

/-- C6 (witness): the one-asset report-only run issues no call and its
report matches the successful mutating run's report. -/
theorem processAssets_reportOnly_frame_witness :
    (processAssets sampleEnv "us-west1".toList true (fun _ => "checkout".toList)
        [sampleAsset] []).2.1 = []
      ∧ (processAssets sampleEnv "us-west1".toList true (fun _ => "checkout".toList)
            [sampleAsset] []).1 =
          (processAssets sampleEnv "us-west1".toList false (fun _ => "checkout".toList)
            [sampleAsset] []).1 :=
  ⟨(processAssets_reportOnly_frame sampleEnv "us-west1".toList (fun _ => "checkout".toList)
      [sampleAsset] []).1,
   (processAssets_reportOnly_frame sampleEnv "us-west1".toList (fun _ => "checkout".toList)
      [sampleAsset] []).2.2 (by rfl)⟩

/-- Two log-derived entries whose URIs both resolve to discovered twins. -/
def sampleLogEntries : List (Str × LogAsset) :=
  [("u1".toList, ⟨"asset-one".toList, "discoveredService".toList, "us-west1".toList⟩),
   ("u2".toList, ⟨"asset-two".toList, "discoveredService".toList, "us-west1".toList⟩)]

/-- Lookup oracle distinguishing the two sample URIs. -/
def sampleLogEnv : ProcessEnv :=
  ⟨fun _ uri _ =>
    if uri = "u1".toList then "projects/p/locations/us-west1/discoveredServices/svc-1".toList
    else if uri = "u2".toList then
      "projects/p/locations/us-west1/discoveredServices/svc-2".toList
    else [],
   fun _ => true, fun _ _ => true⟩

/-- Two asset-inventory assets that resolve to the same application name. -/
def samplePairAssets : List Asset :=
  [⟨"u1".toList, "run.googleapis.com/Service".toList, "us-west1".toList, "projects/p".toList,
    [], [], [], []⟩,
   ⟨"u2".toList, "run.googleapis.com/Service".toList, "us-west1".toList, "projects/p".toList,
    [], [], [], []⟩]

/-- C1: the Cloud Logging path does not accumulate the report by
concatenation.  Its loop stores each successful resource's triple by
plain map assignment under the (uniform) application name, so two
resources that both resolve leave only the last three-element triple —
not the claimed six-element list — while the processAssets path used by
every other discovery mode does append by concatenation and yields six
elements for two resources under one application name. -/
theorem cloudLoggingReport_overwrites_last_triple :
    (generateAppsCloudLogging sampleLogEnv "payments".toList true sampleLogEntries []).1 =
        [("payments".toList,
          ["svc-2".toList, "discoveredService".toList, "asset-two".toList])]
      ∧ (reportGet (generateAppsCloudLogging sampleLogEnv "payments".toList true
            sampleLogEntries []).1 "payments".toList).length = 3
      ∧ reportGet (processAssets sampleLogEnv "global".toList true
            (fun _ => "payments".toList) samplePairAssets []).1 "payments".toList =
          ["svc-1".toList, "discoveredService".toList, "u1".toList,
           "svc-2".toList, "discoveredService".toList, "u2".toList] := by
  refine ⟨?_, ?_, ?_⟩
  · rfl
  · rfl
  · rfl

/-- When every deletion succeeds, the fan-out completes all pending
deletions in order. -/
theorem runDeletions_all_ok (ok : DeleteEvent → Bool) (hok : ∀ e, ok e = true) :
    ∀ l : List DeleteEvent, runDeletions ok l = (l, true)
  | [] => rfl
  | e :: rest => by
    rw [runDeletions, if_pos (hok e), runDeletions_all_ok ok hok rest]

/-- Completed deletions all come from the pending list. -/
theorem runDeletions_subset (ok : DeleteEvent → Bool) :
    ∀ (l : List DeleteEvent) (e : DeleteEvent), e ∈ (runDeletions ok l).1 → e ∈ l
  | [], _, h => absurd h (List.not_mem_nil _)
  | d :: rest, e, h => by
    rw [runDeletions] at h
    by_cases hd : ok d = true
    · rw [if_pos hd] at h
      rcases List.mem_cons.mp h with h' | h'
      · exact h' ▸ List.mem_cons_self d rest
      · exact List.mem_cons_of_mem d (runDeletions_subset ok rest e h')
    · rw [if_neg hd] at h
      exact absurd h (List.not_mem_nil _)

/-- Service deletions touch neither the workloads nor the applications. -/
theorem deleteServiceEvents_frame (a : Str) :
    ∀ (ids : List Str) (s : CatalogStore),
      ((ids.map (DeleteEvent.deleteService a)).foldl applyDeleteEvent s).workloads =
          s.workloads
        ∧ ((ids.map (DeleteEvent.deleteService a)).foldl applyDeleteEvent s).apps = s.apps
  | [], _ => ⟨rfl, rfl⟩
  | i :: ids, s => by
    simp only [List.map_cons, List.foldl_cons]
    exact ⟨(deleteServiceEvents_frame a ids _).1, (deleteServiceEvents_frame a ids _).2⟩

/-- Workload deletions touch neither the services nor the applications. -/
theorem deleteWorkloadEvents_frame (a : Str) :
    ∀ (ids : List Str) (s : CatalogStore),
      ((ids.map (DeleteEvent.deleteWorkload a)).foldl applyDeleteEvent s).services =
          s.services
        ∧ ((ids.map (DeleteEvent.deleteWorkload a)).foldl applyDeleteEvent s).apps = s.apps
  | [], _ => ⟨rfl, rfl⟩
  | i :: ids, s => by
    simp only [List.map_cons, List.foldl_cons]
    exact ⟨(deleteWorkloadEvents_frame a ids _).1, (deleteWorkloadEvents_frame a ids _).2⟩

/-- Deleting every service id that covers the application leaves it with
no services. -/
theorem deleteServiceEvents_clear (a : Str) :
    ∀ (ids : List Str) (s : CatalogStore),
      (∀ p ∈ s.services, p.1 = a → p.2 ∈ ids) →
      servicesOf ((ids.map (DeleteEvent.deleteService a)).foldl applyDeleteEvent s) a = []
  | [], s, h => by
    have hf : s.services.filter (fun p => decide (p.1 = a)) = [] := by
      rw [List.filter_eq_nil_iff]
      intro p hp
      simp only [decide_eq_true_eq]
      intro hpa
      exact absurd (h p hp hpa) (List.not_mem_nil _)
    simp [servicesOf, hf]
  | i :: ids, s, h => by
    simp only [List.map_cons, List.foldl_cons]
    apply deleteServiceEvents_clear a ids
    intro p hp hpa
    have hp' : p ∈ s.services.filter (fun q => decide (¬ (q.1 = a ∧ q.2 = i))) := hp
    rw [List.mem_filter] at hp'
    have h2 : ¬ (p.1 = a ∧ p.2 = i) := of_decide_eq_true hp'.2
    rcases List.mem_cons.mp (h p hp'.1 hpa) with he | he
    · exact absurd ⟨hpa, he⟩ h2
    · exact he

/-- Deleting every workload id that covers the application leaves it with
no workloads. -/
theorem deleteWorkloadEvents_clear (a : Str) :
    ∀ (ids : List Str) (s : CatalogStore),
      (∀ p ∈ s.workloads, p.1 = a → p.2 ∈ ids) →
      workloadsOf ((ids.map (DeleteEvent.deleteWorkload a)).foldl applyDeleteEvent s) a = []
  | [], s, h => by
    have hf : s.workloads.filter (fun p => decide (p.1 = a)) = [] := by
      rw [List.filter_eq_nil_iff]
      intro p hp
      simp only [decide_eq_true_eq]
      intro hpa
      exact absurd (h p hp hpa) (List.not_mem_nil _)
    simp [workloadsOf, hf]
  | i :: ids, s, h => by
    simp only [List.map_cons, List.foldl_cons]
    apply deleteWorkloadEvents_clear a ids
    intro p hp hpa
    have hp' : p ∈ s.workloads.filter (fun q => decide (¬ (q.1 = a ∧ q.2 = i))) := hp
    rw [List.mem_filter] at hp'
    have h2 : ¬ (p.1 = a ∧ p.2 = i) := of_decide_eq_true hp'.2
    rcases List.mem_cons.mp (h p hp'.1 hpa) with he | he
    · exact absurd ⟨hpa, he⟩ h2
    · exact he

/-- Every service registered under an application is listed by
`servicesOf`. -/
theorem mem_servicesOf (s : CatalogStore) (a : Str) :
    ∀ p ∈ s.services, p.1 = a → p.2 ∈ servicesOf s a := by
  intro p hp hpa
  exact List.mem_map_of_mem Prod.snd (List.mem_filter.mpr ⟨hp, by simp [hpa]⟩)

/-- Every workload registered under an application is listed by
`workloadsOf`. -/
theorem mem_workloadsOf (s : CatalogStore) (a : Str) :
    ∀ p ∈ s.workloads, p.1 = a → p.2 ∈ workloadsOf s a := by
  intro p hp hpa
  exact List.mem_map_of_mem Prod.snd (List.mem_filter.mpr ⟨hp, by simp [hpa]⟩)

/-- Behaviour of `removeAllServices` under an all-success oracle: every listed service
deletion is applied, in listing order. -/
theorem removeAllServices_all_ok (ok : DeleteEvent → Bool) (hok : ∀ e, ok e = true)
    (appID : Str) (s : CatalogStore) :
    removeAllServices ok appID s =
      ((((servicesOf s appID).map (DeleteEvent.deleteService appID)).foldl applyDeleteEvent s),
       (servicesOf s appID).map (DeleteEvent.deleteService appID), true) := by
  simp only [removeAllServices, runDeletions_all_ok ok hok]

/-- Behaviour of `removeAllWorkloads` under an all-success oracle. -/
theorem removeAllWorkloads_all_ok (ok : DeleteEvent → Bool) (hok : ∀ e, ok e = true)
    (appID : Str) (s : CatalogStore) :
    removeAllWorkloads ok appID s =
      ((((workloadsOf s appID).map (DeleteEvent.deleteWorkload appID)).foldl applyDeleteEvent s),
       (workloadsOf s appID).map (DeleteEvent.deleteWorkload appID), true) := by
  simp only [removeAllWorkloads, runDeletions_all_ok ok hok]

/-- Workloads listed for an application are unchanged by the service
deletion phase. -/
theorem workloadsOf_after_serviceEvents (a : Str) (ids : List Str) (s : CatalogStore) :
    workloadsOf ((ids.map (DeleteEvent.deleteService a)).foldl applyDeleteEvent s) a =
      workloadsOf s a := by
  unfold workloadsOf
  rw [(deleteServiceEvents_frame a ids s).1]

/-- Services listed for an application are unchanged by the workload
deletion phase. -/
theorem servicesOf_after_workloadEvents (a : Str) (ids : List Str) (s : CatalogStore) :
    servicesOf ((ids.map (DeleteEvent.deleteWorkload a)).foldl applyDeleteEvent s) a =
      servicesOf s a := by
  unfold servicesOf
  rw [(deleteWorkloadEvents_frame a ids s).1]

/-- Behaviour of `deleteApp` under an all-success oracle: the service deletions, then
the workload deletions, then — only after all of them — the
application's own deletion. -/
theorem deleteApp_all_ok (ok : DeleteEvent → Bool) (hok : ∀ e, ok e = true)
    (appID : Str) (s : CatalogStore) :
    deleteApp ok appID s =
      (applyDeleteEvent
        (((workloadsOf s appID).map (DeleteEvent.deleteWorkload appID)).foldl applyDeleteEvent
          (((servicesOf s appID).map (DeleteEvent.deleteService appID)).foldl
            applyDeleteEvent s))
        (DeleteEvent.deleteApplication appID),
       ((servicesOf s appID).map (DeleteEvent.deleteService appID) ++
        (workloadsOf s appID).map (DeleteEvent.deleteWorkload appID)) ++
        [DeleteEvent.deleteApplication appID],
       true) := by
  have hs := removeAllServices_all_ok ok hok appID s
  have hw := removeAllWorkloads_all_ok ok hok appID
    (((servicesOf s appID).map (DeleteEvent.deleteService appID)).foldl applyDeleteEvent s)
  have hwids : workloadsOf
      (((servicesOf s appID).map (DeleteEvent.deleteService appID)).foldl applyDeleteEvent s)
      appID = workloadsOf s appID :=
    workloadsOf_after_serviceEvents appID (servicesOf s appID) s
  rw [hwids] at hw
  simp only [deleteApp, hs, hw]
  rw [if_neg (by simp), if_neg (by simp), if_pos (hok (DeleteEvent.deleteApplication appID))]

/-- An application deletion never appears among service-deletion events. -/
theorem deleteApplication_not_mem_serviceEvents (a a' : Str) (ids : List Str) :
    DeleteEvent.deleteApplication a ∉ ids.map (DeleteEvent.deleteService a') := by
  simp [List.mem_map]

/-- An application deletion never appears among workload-deletion events. -/
theorem deleteApplication_not_mem_workloadEvents (a a' : Str) (ids : List Str) :
    DeleteEvent.deleteApplication a ∉ ids.map (DeleteEvent.deleteWorkload a') := by
  simp [List.mem_map]

/-- If a child deletion phase fails, the application's own deletion is
never submitted. -/
theorem deleteApp_child_failure (ok : DeleteEvent → Bool) (appID : Str) (s : CatalogStore)
    (hfail : (removeAllServices ok appID s).2.2 = false ∨
      (removeAllWorkloads ok appID (removeAllServices ok appID s).1).2.2 = false) :
    DeleteEvent.deleteApplication appID ∉ (deleteApp ok appID s).2.1 := by
  by_cases hb1 : (removeAllServices ok appID s).2.2 = false
  · simp only [deleteApp, if_pos hb1]
    intro hmem
    have hsub := runDeletions_subset ok
      ((servicesOf s appID).map (DeleteEvent.deleteService appID))
      (DeleteEvent.deleteApplication appID) hmem
    exact deleteApplication_not_mem_serviceEvents appID appID (servicesOf s appID) hsub
  · rcases hfail with hf | hf
    · exact absurd hf hb1
    · simp only [deleteApp, if_neg hb1, if_pos hf]
      intro hmem
      rcases List.mem_append.mp hmem with hm | hm
      · have hsub := runDeletions_subset ok
          ((servicesOf s appID).map (DeleteEvent.deleteService appID))
          (DeleteEvent.deleteApplication appID) hm
        exact deleteApplication_not_mem_serviceEvents appID appID (servicesOf s appID) hsub
      · have hsub := runDeletions_subset ok
          ((workloadsOf (removeAllServices ok appID s).1 appID).map
            (DeleteEvent.deleteWorkload appID))
          (DeleteEvent.deleteApplication appID) hm
        exact deleteApplication_not_mem_workloadEvents appID appID
          (workloadsOf (removeAllServices ok appID s).1 appID) hsub

/-- Running `deleteApp` with an all-success oracle empties the application and
submits its own deletion last. -/
theorem deleteApp_clears (ok : DeleteEvent → Bool) (hok : ∀ e, ok e = true)
    (appID : Str) (s : CatalogStore) :
    servicesOf (deleteApp ok appID s).1 appID = []
      ∧ workloadsOf (deleteApp ok appID s).1 appID = []
      ∧ appID ∉ (deleteApp ok appID s).1.apps
      ∧ ∃ pre, (deleteApp ok appID s).2.1 = pre ++ [DeleteEvent.deleteApplication appID]
          ∧ ∀ e ∈ pre, (∃ i, e = DeleteEvent.deleteService appID i)
              ∨ (∃ i, e = DeleteEvent.deleteWorkload appID i) := by
  rw [deleteApp_all_ok ok hok appID s]
  refine ⟨?_, ?_, ?_, ?_⟩
  · show servicesOf
      (((workloadsOf s appID).map (DeleteEvent.deleteWorkload appID)).foldl applyDeleteEvent
        (((servicesOf s appID).map (DeleteEvent.deleteService appID)).foldl
          applyDeleteEvent s)) appID = []
    rw [servicesOf_after_workloadEvents]
    exact deleteServiceEvents_clear appID (servicesOf s appID) s (mem_servicesOf s appID)
  · show workloadsOf
      (((workloadsOf s appID).map (DeleteEvent.deleteWorkload appID)).foldl applyDeleteEvent
        (((servicesOf s appID).map (DeleteEvent.deleteService appID)).foldl
          applyDeleteEvent s)) appID = []
    apply deleteWorkloadEvents_clear
    intro p hp hpa
    have hframe := (deleteServiceEvents_frame appID (servicesOf s appID) s).1
    rw [hframe] at hp
    exact mem_workloadsOf s appID p hp hpa
  · intro hmem
    have hm2 := List.mem_filter.mp hmem
    exact absurd rfl (of_decide_eq_true hm2.2)
  · refine ⟨(servicesOf s appID).map (DeleteEvent.deleteService appID) ++
      (workloadsOf s appID).map (DeleteEvent.deleteWorkload appID), rfl, ?_⟩
    intro e he
    rcases List.mem_append.mp he with hm | hm
    · rcases List.mem_map.mp hm with ⟨i, _, hi⟩
      exact Or.inl ⟨i, hi.symm⟩
    · rcases List.mem_map.mp hm with ⟨i, _, hi⟩
      exact Or.inr ⟨i, hi.symm⟩

/-- C9: against the catalog backing store, tearing an application down
after the Registration State Machine's calls have been applied leaves
zero services, zero workloads, and no application for that id; the trace
submits the application's own deletion last, after every child deletion,
and if a child deletion phase fails the application deletion is never
submitted. -/
theorem deleteApp_roundTrip (ok : DeleteEvent → Bool) (env : ProcessEnv) (appLoc : Str)
    (f : Asset → Str) (assets : List Asset) (r0 : Report) (s0 : CatalogStore) (appID : Str) :
    ((∀ e, ok e = true) →
      servicesOf (deleteApp ok appID
          (applyCatalogCalls ((processAssets env appLoc false f assets r0).2.1) s0)).1
          appID = []
        ∧ workloadsOf (deleteApp ok appID
            (applyCatalogCalls ((processAssets env appLoc false f assets r0).2.1) s0)).1
            appID = []
        ∧ appID ∉ (deleteApp ok appID
            (applyCatalogCalls ((processAssets env appLoc false f assets r0).2.1) s0)).1.apps
        ∧ ∃ pre, (deleteApp ok appID
              (applyCatalogCalls ((processAssets env appLoc false f assets r0).2.1) s0)).2.1 =
              pre ++ [DeleteEvent.deleteApplication appID]
            ∧ ∀ e ∈ pre, (∃ i, e = DeleteEvent.deleteService appID i)
                ∨ (∃ i, e = DeleteEvent.deleteWorkload appID i))
      ∧ (((removeAllServices ok appID
            (applyCatalogCalls ((processAssets env appLoc false f assets r0).2.1) s0)).2.2 =
              false
          ∨ (removeAllWorkloads ok appID (removeAllServices ok appID
              (applyCatalogCalls ((processAssets env appLoc false f assets r0).2.1)
                s0)).1).2.2 = false) →
          DeleteEvent.deleteApplication appID ∉ (deleteApp ok appID
            (applyCatalogCalls ((processAssets env appLoc false f assets r0).2.1) s0)).2.1) :=
  ⟨fun hok => deleteApp_clears ok hok appID _,
   fun hfail => deleteApp_child_failure ok appID _ hfail⟩

/-- C9 (witness): the sample one-asset registration run produces calls
whose application the teardown then empties and deletes, with the
application deletion submitted last. -/
theorem deleteApp_roundTrip_witness :
    servicesOf (deleteApp (fun _ => true) "checkout".toList
        (applyCatalogCalls ((processAssets sampleEnv "us-west1".toList false
          (fun _ => "checkout".toList) [sampleAsset] []).2.1) ⟨[], [], []⟩)).1
        "checkout".toList = []
      ∧ workloadsOf (deleteApp (fun _ => true) "checkout".toList
          (applyCatalogCalls ((processAssets sampleEnv "us-west1".toList false
            (fun _ => "checkout".toList) [sampleAsset] []).2.1) ⟨[], [], []⟩)).1
          "checkout".toList = []
      ∧ "checkout".toList ∉ (deleteApp (fun _ => true) "checkout".toList
          (applyCatalogCalls ((processAssets sampleEnv "us-west1".toList false
            (fun _ => "checkout".toList) [sampleAsset] []).2.1) ⟨[], [], []⟩)).1.apps
      ∧ ∃ pre, (deleteApp (fun _ => true) "checkout".toList
            (applyCatalogCalls ((processAssets sampleEnv "us-west1".toList false
              (fun _ => "checkout".toList) [sampleAsset] []).2.1) ⟨[], [], []⟩)).2.1 =
            pre ++ [DeleteEvent.deleteApplication "checkout".toList]
          ∧ ∀ e ∈ pre, (∃ i, e = DeleteEvent.deleteService "checkout".toList i)
              ∨ (∃ i, e = DeleteEvent.deleteWorkload "checkout".toList i) :=
  (deleteApp_roundTrip (fun _ => true) sampleEnv "us-west1".toList
    (fun _ => "checkout".toList) [sampleAsset] [] ⟨[], [], []⟩ "checkout".toList).1
    (fun _ => rfl)
